import Mathlib

/-!
Shallow embedding of the IXWebSocket HTTP client engine
(src/ixwebsocket/IXHttpClient.cpp) in Lean 4.

Modelling conventions, fixed once for the whole file:

* Byte strings (std::string) are modelled as Lean `String` except for
  `urlEncode`, which works on raw byte values (`List Nat`, each < 256)
  because it inspects individual bytes.
* Machine integers are modelled as `Int` (for `int` fields such as the
  status code and `maxRedirects`) or `Nat` (for sizes).
* The transport socket is an external collaborator (it is not part of
  the repository sources given here); per the spec it exposes
  `readLine` and `readBytes`, each returning a success flag and data.
  We model one connection as two scripts: the successive results of
  `readLine` calls and the successive results of `readBytes` calls.
  An exhausted script behaves as a failing read.
* `UrlParser::parse` and `parseHttpHeaders` are likewise external
  collaborators; their outcome for a given connection is part of the
  per-connection script (`Hop` below).
* Timeouts, cancellation, logging (`verbose`/`logger`) and the progress
  callback affect only timing and diagnostics, not the values computed;
  they are elided.
* `gzipInflate` wraps zlib (external); it is passed in as a function
  `inflate : String → Option String` (`none` = decoder fault).
-/

namespace IXHttp

/-- Error taxonomy of the client, one constructor per `HttpErrorCode`
enumerator used in IXHttpClient.cpp. -/
inductive HttpErrorCode where
  | Ok
  | CannotConnect
  | Timeout
  | Gzip
  | UrlMalformed
  | CannotCreateSocket
  | SendError
  | ReadError
  | CannotReadStatusLine
  | MissingStatus
  | HeaderParsingError
  | MissingLocation
  | TooManyRedirects
  | ChunkReadError
  | CannotReadBody
  deriving DecidableEq, Repr

/-- `WebSocketHttpHeaders`: a string-keyed mapping with unique keys.
We model it as an association list; `std::map`'s key ordering and
case-insensitive comparator are irrelevant to the claims (all lookups
in the claims use one fixed spelling per key). -/
abbrev Headers := List (String × String)

/-- `map::find` — first (unique) binding of a key. -/
def hfind : Headers → String → Option String
  | [], _ => none
  | (k, v) :: rest, key => if k = key then some v else hfind rest key

/-- `map::operator[]` — returns the bound value, inserting an empty
string binding first when the key is absent (the C++ semantics of
`headers["Content-Encoding"]` on line 402). Returns the value read and
the possibly-extended map. -/
def hGetOrInsert : Headers → String → String × Headers
  | [], k => ("", [(k, "")])
  | (k', v) :: rest, k =>
    if k' = k then (v, (k', v) :: rest)
    else
      let r := hGetOrInsert rest k
      (r.1, (k', v) :: r.2)

/-- `HttpResponse` (statusCode, errorCode, headers, payload, errorMsg,
uploadSize, downloadSize). -/
structure HttpResponse where
  statusCode : Int
  errorCode : HttpErrorCode
  headers : Headers
  payload : String
  errorMsg : String
  uploadSize : Nat
  downloadSize : Nat
  deriving DecidableEq, Repr

/-- The fields of `HttpRequestArgs` that influence the values computed
by `HttpClient::request` (timeouts, verbosity, logger and the progress
callback are elided, see the header comment). -/
structure HttpRequestArgs where
  extraHeaders : Headers
  compress : Bool
  followRedirects : Bool
  maxRedirects : Int
  deriving DecidableEq, Repr

/-- One connection's worth of external-collaborator behaviour: what the
URL parser, socket factory, transport and header parser yield for the
hop performed at a given redirect depth.

`parsedUrl` = result of `UrlParser::parse` (protocol, host, path,
query, port); `statusLine` = first `readLine` result; `headersRes` =
result of `parseHttpHeaders`; `lines` / `reads` = the subsequent
`readLine` / `readBytes` results while reading the body. -/
structure Hop where
  parsedUrl : Option (String × String × String × String × Int)
  socketOk : Bool
  connectOk : Bool
  writeOk : Bool
  statusLine : Bool × String
  headersRes : Bool × Headers
  lines : List (Bool × String)
  reads : List (Bool × String)
  deriving DecidableEq, Repr

/-- Verb constants of HttpClient. Note `kDel` is the string "DEL" in
the source (IXHttpClient.cpp line 24). -/
def kPost : String := "POST"

def kGet : String := "GET"

def kHead : String := "HEAD"

def kDel : String := "DEL"

def kPut : String := "PUT"

/-- Value of a decimal digit string (most significant first). -/
def digitsToNat (cs : List Char) : Nat :=
  cs.foldl (fun a c => 10 * a + (c.toNat - 48)) 0

/-- `sscanf(line.c_str(), "HTTP/1.1 %d", &code)`: the literal prefix
`HTTP/1.1`, whitespace, then a decimal integer; `none` when no integer
is assigned (sscanf result ≠ 1). The `%d` sign and exotic whitespace
handling of sscanf are elided (no claim depends on them). -/
def parseStatusCode (line : String) : Option Int :=
  let cs := line.toList
  if "HTTP/1.1".toList.isPrefixOf cs then
    let rest := (cs.drop 8).dropWhile (fun c => c = ' ')
    let ds := rest.takeWhile Char.isDigit
    if ds.isEmpty then none else some (Int.ofNat (digitsToNat ds))
  else none

/-- Value of one hexadecimal digit character, `none` otherwise. -/
def hexVal (ch : Char) : Option Nat :=
  if '0' ≤ ch ∧ ch ≤ '9' then some (ch.toNat - 48)
  else if 'A' ≤ ch ∧ ch ≤ 'F' then some (ch.toNat - 55)
  else if 'a' ≤ ch ∧ ch ≤ 'f' then some (ch.toNat - 87)
  else none

/-- `ss << std::hex << line; ss >> chunkSize;` — stream extraction of a
hex integer: skip leading spaces, consume the longest run of hex
digits. A failed extraction (no hex digit) stores 0 (C++11 semantics of
`num_get` on failure). The `0x` prefix and sign handling of stream
extraction are elided (no claim depends on them), and each size line is
parsed independently: the C++ reuses one stringstream across loop
iterations without clearing its state, which matches the stateless
model whenever extraction stops before the end of the buffer (as with
the transport's CR-terminated lines); no claim depends on the sizes
parsed after the first chunk. -/
def parseHexSize (line : String) : Nat :=
  let cs := line.toList.dropWhile (fun c => c = ' ')
  let ds := cs.takeWhile (fun c => (hexVal c).isSome)
  ds.foldl (fun a c => 16 * a + ((hexVal c).getD 0)) 0

/-- True when the line has no leading hex digit (after spaces), i.e.
the C++ stream extraction of the chunk size fails outright. -/
def hexFreeLine (line : String) : Bool :=
  match line.toList.dropWhile (fun c => c = ' ') with
  | [] => true
  | c :: _ => (hexVal c).isNone

/-- `ss >> contentLength` — decimal stream extraction of the
Content-Length value; a failed extraction stores 0 (C++11). Only the
sign-free digit form matters to the claims. -/
def parseContentLength (s : String) : Int :=
  let cs := s.toList.dropWhile (fun c => c = ' ')
  match cs with
  | '-' :: rest => - Int.ofNat (digitsToNat (rest.takeWhile Char.isDigit))
  | _ => Int.ofNat (digitsToNat (cs.takeWhile Char.isDigit))

/-- `Socket::readLine` against the scripted transport: pop the next
scripted line result; an exhausted script is a failing read. -/
def readLine : List (Bool × String) → (Bool × String) × List (Bool × String)
  | [] => ((false, ""), [])
  | e :: rest => (e, rest)

/-- `Socket::readBytes n` against the scripted transport: pop the next
scripted read result (`n` is the requested byte count of the external
contract; the script supplies the data). -/
def readBytes (_n : Nat) : List (Bool × String) → (Bool × String) × List (Bool × String)
  | [] => ((false, ""), [])
  | e :: rest => (e, rest)

/-- Request serialization, IXHttpClient.cpp lines 145-190. `headers` is
the local response-header variable of `HttpClient::request` (empty at
this point in the source); the source really does consult it — not
`args.extraHeaders` — for the default Accept / User-Agent checks
(lines 162 and 168), so the model takes it as a parameter. -/
def buildRequest (verb path host : String) (headers : Headers)
    (body : String) (args : HttpRequestArgs) : String :=
  let s := verb ++ " " ++ path ++ " HTTP/1.1\r\n" ++ "Host: " ++ host ++ "\r\n"
  let s := if args.compress then s ++ "Accept-Encoding: gzip\r\n" else s
  let s := s ++ String.join (args.extraHeaders.map (fun p => p.1 ++ ": " ++ p.2 ++ "\r\n"))
  let s := if hfind headers "Accept" = none then s ++ "Accept: */*\r\n" else s
  let s := if hfind headers "User-Agent" = none then s ++ "User-Agent: ixwebsocket\r\n" else s
  if verb = kPost ∨ verb = kPut then
    let s := s ++ "Content-Length: " ++ toString body.length ++ "\r\n"
    let s := if hfind args.extraHeaders "Content-Type" = none then
        s ++ "Content-Type: application/x-www-form-urlencoded\r\n"
      else s
    s ++ "\r\n" ++ body
  else s ++ "\r\n"

/-- Chunked-transfer decode loop, IXHttpClient.cpp lines 332-385.
Reads a size line, the chunk bytes, the terminating line; a zero size
ends the body. Returns either a terminal error response (`.inl`) or the
accumulated payload (`.inr`). -/
def chunkLoop (code : Int) (headers : Headers) (uploadSize : Nat) :
    List (Bool × String) → List (Bool × String) → String → HttpResponse ⊕ String
  | [], _reads, payload =>
    .inl { statusCode := code, errorCode := .ChunkReadError, headers := headers,
           payload := payload, errorMsg := "", uploadSize := uploadSize, downloadSize := 0 }
  | (ok1, line) :: lines1, reads, payload =>
    if ok1 then
      let chunkSize := parseHexSize line
      let r := readBytes chunkSize reads
      if r.1.1 then
        let payload1 := payload ++ r.1.2
        match lines1 with
        | [] =>
          .inl { statusCode := code, errorCode := .ChunkReadError, headers := headers,
                 payload := payload1, errorMsg := "", uploadSize := uploadSize, downloadSize := 0 }
        | (ok2, _term) :: lines2 =>
          if ok2 then
            if chunkSize = 0 then .inr payload1
            else chunkLoop code headers uploadSize lines2 r.2 payload1
          else
            .inl { statusCode := code, errorCode := .ChunkReadError, headers := headers,
                   payload := payload1, errorMsg := "", uploadSize := uploadSize, downloadSize := 0 }
      else
        .inl { statusCode := code, errorCode := .ChunkReadError, headers := headers,
               payload := payload, errorMsg := "Cannot read chunk", uploadSize := uploadSize,
               downloadSize := 0 }
    else
      .inl { statusCode := code, errorCode := .ChunkReadError, headers := headers,
             payload := payload, errorMsg := "", uploadSize := uploadSize, downloadSize := 0 }

/-- Content-Length body read, IXHttpClient.cpp lines 308-328: parse the
length, read that many bytes in one `readBytes` call; `.inl` is the
short-read error, `.inr` the payload. -/
def clBody (code : Int) (headers : Headers) (clValue : String)
    (reads : List (Bool × String)) (uploadSize : Nat) : HttpResponse ⊕ String :=
  let contentLength := parseContentLength clValue
  let r := readBytes contentLength.toNat reads
  if r.1.1 then .inr r.1.2
  else
    .inl { statusCode := code, errorCode := .ChunkReadError, headers := headers,
           payload := "", errorMsg := "Cannot read chunk", uploadSize := uploadSize,
           downloadSize := 0 }

/-- Tail of `HttpClient::request` after body framing, lines 399-417:
record downloadSize, run the gzip check (note `headers["Content-Encoding"]`
inserts an empty binding when the header is absent), decompress when it
equals "gzip", and build the terminal response. -/
def finishBody (inflate : String → Option String) (code : Int) (headers : Headers)
    (payload : String) (uploadSize : Nat) : HttpResponse :=
  let downloadSize := payload.length
  let ce := hGetOrInsert headers "Content-Encoding"
  if ce.1 = "gzip" then
    match inflate payload with
    | none =>
      { statusCode := code, errorCode := .Gzip, headers := ce.2, payload := payload,
        errorMsg := "Error decompressing payload", uploadSize := uploadSize,
        downloadSize := downloadSize }
    | some decompressed =>
      { statusCode := code, errorCode := .Ok, headers := ce.2, payload := decompressed,
        errorMsg := "", uploadSize := uploadSize, downloadSize := downloadSize }
  else
    { statusCode := code, errorCode := .Ok, headers := ce.2, payload := payload,
      errorMsg := "", uploadSize := uploadSize, downloadSize := downloadSize }

/-- Content-Length framing path followed by the response tail. -/
def clOutcome (inflate : String → Option String) (code : Int) (headers : Headers)
    (clValue : String) (reads : List (Bool × String)) (uploadSize : Nat) : HttpResponse :=
  match clBody code headers clValue reads uploadSize with
  | .inl err => err
  | .inr payload => finishBody inflate code headers payload uploadSize

/-- Chunked framing path followed by the response tail. -/
def chunkedOutcome (inflate : String → Option String) (code : Int) (headers : Headers)
    (lines reads : List (Bool × String)) (uploadSize : Nat) : HttpResponse :=
  match chunkLoop code headers uploadSize lines reads "" with
  | .inl err => err
  | .inr payload => finishBody inflate code headers payload uploadSize

/-- Body framing selection, IXHttpClient.cpp lines 307-397: the
if / else-if chain choosing Content-Length, chunked, 204-no-content or
the CannotReadBody error. -/
def framingResult (inflate : String → Option String) (code : Int) (headers : Headers)
    (lines reads : List (Bool × String)) (uploadSize : Nat) : HttpResponse :=
  match hfind headers "Content-Length" with
  | some clValue => clOutcome inflate code headers clValue reads uploadSize
  | none =>
    if hfind headers "Transfer-Encoding" = some "chunked" then
      chunkedOutcome inflate code headers lines reads uploadSize
    else if code = 204 then
      finishBody inflate code headers "" uploadSize
    else
      { statusCode := code, errorCode := .CannotReadBody, headers := headers,
        payload := "", errorMsg := "Cannot read http body", uploadSize := uploadSize,
        downloadSize := 0 }

/-- One hop of `HttpClient::request` (the body of the function for a
single connection, lines 116-417), minus the recursive redirect call:
`.inl r` means the call terminates here with response `r`; `.inr loc`
means a redirect to `loc` is followed (the `return request(location,...)`
on line 297). The error-message interpolation of the source (URLs,
counts) is elided; the fixed message prefixes are kept. -/
def hopStep (inflate : String → Option String) (hop : Hop) (verb body : String)
    (args : HttpRequestArgs) (redirects : Nat) : HttpResponse ⊕ String :=
  match hop.parsedUrl with
  | none =>
    .inl { statusCode := 0, errorCode := .UrlMalformed, headers := [], payload := "",
           errorMsg := "Cannot parse url", uploadSize := 0, downloadSize := 0 }
  | some (_protocol, host, path, _query, _port) =>
    if hop.socketOk then
      let req := buildRequest verb path host ([] : Headers) body args
      if hop.connectOk then
        if hop.writeOk then
          let uploadSize := req.length
          if hop.statusLine.1 then
            match parseStatusCode hop.statusLine.2 with
            | none =>
              .inl { statusCode := 0, errorCode := .MissingStatus, headers := [],
                     payload := "", errorMsg := "Cannot parse response code from status line",
                     uploadSize := uploadSize, downloadSize := 0 }
            | some code =>
              let headers := hop.headersRes.2
              if hop.headersRes.1 then
                if (301 ≤ code ∧ code ≤ 308) ∧ args.followRedirects = true then
                  match hfind headers "Location" with
                  | none =>
                    .inl { statusCode := code, errorCode := .MissingLocation,
                           headers := headers, payload := "",
                           errorMsg := "Missing location header for redirect",
                           uploadSize := uploadSize, downloadSize := 0 }
                  | some location =>
                    if (redirects : Int) ≥ args.maxRedirects then
                      .inl { statusCode := code, errorCode := .TooManyRedirects,
                             headers := headers, payload := "",
                             errorMsg := "Too many redirects",
                             uploadSize := uploadSize, downloadSize := 0 }
                    else .inr location
                else if verb = "HEAD" then
                  .inl { statusCode := code, errorCode := .Ok, headers := headers,
                         payload := "", errorMsg := "", uploadSize := uploadSize,
                         downloadSize := 0 }
                else
                  .inl (framingResult inflate code headers hop.lines hop.reads uploadSize)
              else
                .inl { statusCode := code, errorCode := .HeaderParsingError,
                       headers := headers, payload := "",
                       errorMsg := "Cannot parse http headers",
                       uploadSize := uploadSize, downloadSize := 0 }
          else
            .inl { statusCode := 0, errorCode := .CannotReadStatusLine, headers := [],
                   payload := "", errorMsg := "Cannot retrieve status line",
                   uploadSize := uploadSize, downloadSize := 0 }
        else
          .inl { statusCode := 0, errorCode := .SendError, headers := [], payload := "",
                 errorMsg := "Cannot send request", uploadSize := 0, downloadSize := 0 }
      else
        .inl { statusCode := 0, errorCode := .CannotConnect, headers := [], payload := "",
               errorMsg := "Cannot connect to url", uploadSize := 0, downloadSize := 0 }
    else
      .inl { statusCode := 0, errorCode := .CannotCreateSocket, headers := [], payload := "",
             errorMsg := "Cannot create socket", uploadSize := 0, downloadSize := 0 }

/-- `HttpClient::request`, sequential semantics (the serialized unit of
work): perform hops, following redirects by the plain recursion of
line 297 with `redirects+1`. `hops i` scripts the collaborators for the
hop performed at redirect depth `i` (each hop creates a fresh
connection). Termination mirrors the source's depth bound: a redirect
is followed only while `redirects < args.maxRedirects`. -/
def request (inflate : String → Option String) (hops : Nat → Hop) (verb body : String)
    (args : HttpRequestArgs) (redirects : Nat) : HttpResponse :=
  match h : hopStep inflate (hops redirects) verb body args redirects with
  | .inl resp => resp
  | .inr _location => request inflate hops verb body args (redirects + 1)
termination_by (args.maxRedirects - redirects).toNat
decreasing_by
  have hlt : (redirects : Int) < args.maxRedirects := by
    simp only [hopStep] at h
    repeat' split at h
    all_goals try simp at h
    all_goals omega
  omega

/-- `HttpClient::del` — issues the request with the `kDel` verb
(IXHttpClient.cpp lines 432-436). -/
def del (inflate : String → Option String) (hops : Nat → Hop)
    (args : HttpRequestArgs) : HttpResponse :=
  request inflate hops kDel "" args 0

/-- `HttpClient::get`. -/
def get (inflate : String → Option String) (hops : Nat → Hop)
    (args : HttpRequestArgs) : HttpResponse :=
  request inflate hops kGet "" args 0

/-- `HttpClient::head`. -/
def head (inflate : String → Option String) (hops : Nat → Hop)
    (args : HttpRequestArgs) : HttpResponse :=
  request inflate hops kHead "" args 0

/-- `isalnum` over an unsigned-char byte value, default C locale:
ASCII digits and letters. -/
def isalnumByte (c : Nat) : Bool :=
  (48 ≤ c && c ≤ 57) || (65 ≤ c && c ≤ 90) || (97 ≤ c && c ≤ 122)

/-- The pass-through test of `HttpClient::urlEncode` line 478:
`isalnum(c) || c == '-' || c == '_' || c == '.' || c == '~'`
(45 = '-', 95 = '_', 46 = '.', 126 = '~'). -/
def keepIntact (c : Nat) : Bool :=
  isalnumByte c || c == 45 || c == 95 || c == 46 || c == 126

/-- Uppercase hexadecimal digit character of `n < 16` (the effect of
`std::uppercase`/`std::hex` on the escape stream). -/
def hexDigitUpper (n : Nat) : Char :=
  if n < 10 then Char.ofNat (48 + n) else Char.ofNat (55 + n)

/-- `HttpClient::urlEncode`, lines 466-491: bytes passing `keepIntact`
are emitted verbatim; every other byte becomes `%` followed by its
value as two uppercase hex digits (`setw(2)` with fill '0'). Input is
the raw byte sequence of the `std::string` argument. -/
def urlEncode : List Nat → List Char
  | [] => []
  | c :: rest =>
    if keepIntact c then Char.ofNat c :: urlEncode rest
    else '%' :: hexDigitUpper (c / 16) :: hexDigitUpper (c % 16) :: urlEncode rest

/-- Modelled from the spec: the standard percent-decoding inverse used
by the spec's round-trip property ("encoding then the inverse
percent-decoding ... reproduces the original sequence"). `%` followed
by two hex digits yields that byte; any other character stands for its
own code point (37 = '%' when an escape is malformed). This definition
follows the spec's words, not repository code, and exists only to state
the round-trip claim. -/
def percentDecode : List Char → List Nat
  | [] => []
  | '%' :: a :: b :: rest =>
    match hexVal a, hexVal b with
    | some x, some y => (16 * x + y) :: percentDecode rest
    | _, _ => 37 :: a.toNat :: b.toNat :: percentDecode rest
  | c :: rest => c.toNat :: percentDecode rest

/-- Lock-aware model of `HttpClient::request`. The source acquires the
instance-wide `std::lock_guard<std::mutex> lock(_mutex)` on line 114 at
every entry to `request`, and the redirect recursion on line 297 calls
`request` again while that guard is still in scope. `std::mutex` is
non-reentrant: a second acquisition by the owning thread never
returns. `held` records whether the calling frame already owns
`_mutex`; `none` is the deadlocked (never-returning) call. -/
def requestWithLock (inflate : String → Option String) (hops : Nat → Hop)
    (verb body : String) (args : HttpRequestArgs) (redirects : Nat)
    (held : Bool) : Option HttpResponse :=
  if held then none
  else
    match hopStep inflate (hops redirects) verb body args redirects with
    | .inl resp => some resp
    | .inr _location =>
      requestWithLock inflate hops verb body args (redirects + 1) true
termination_by (if held then 0 else 1 : Nat)
decreasing_by simp_all

/-- Entries of the asynchronous task queue, abstracted to identifiers;
"executing" an entry stands for running its request and invoking its
completion callback. -/
abbrev TaskEntry := Nat

/-- `HttpClient::run`, lines 72-103, sequentialized: the worker loop
against a queue snapshot, with `stop t` the value read from the atomic
`_stop` flag at its `t`-th read. Reads: `t` at the wait-loop guard and
the line-87 check (adjacent reads with no action between, coalesced),
`t+1` at the line-96 check after popping, `t+2` at the line-101 check
after delivering the callback. Returns (entries executed and delivered,
queue contents abandoned on exit). An empty queue with no stop signal
blocks in `_condition.wait` forever in this enqueue-free model. -/
def runLoop (stop : Nat → Bool) : Nat → List TaskEntry → List TaskEntry × List TaskEntry
  | t, queue =>
    if stop t then ([], queue)
    else
      match queue with
      | [] => ([], [])
      | e :: rest =>
        if stop (t + 1) then ([], rest)
        else if stop (t + 2) then ([e], rest)
        else
          let r := runLoop stop (t + 3) rest
          (e :: r.1, r.2)

/-- A hop whose scripted collaborators produce a followed redirect:
URL parsed, socket, connect and write succeed, status line parses to a
code in [301, 308], headers parse and contain Location. Exactly the
conditions under which `hopStep` yields `.inr` when the depth allows. -/
def goodRedirectHop (hop : Hop) : Bool :=
  hop.parsedUrl.isSome && hop.socketOk && hop.connectOk && hop.writeOk &&
  hop.statusLine.1 &&
  (match parseStatusCode hop.statusLine.2 with
   | some c => decide (301 ≤ c) && decide (c ≤ 308)
   | none => false) &&
  hop.headersRes.1 && (hfind hop.headersRes.2 "Location").isSome

/-- Does `pat` occur at the head of `l`? -/
def listStartsWith : List Char → List Char → Bool
  | [], _ => true
  | _ :: _, [] => false
  | p :: ps, c :: cs => p = c && listStartsWith ps cs

/-- Does `pat` occur contiguously anywhere inside `l`? -/
def listHasSub (pat : List Char) : List Char → Bool
  | [] => pat.isEmpty
  | c :: cs => listStartsWith pat (c :: cs) || listHasSub pat cs

/-- Inflate stub for concrete runs in which no gzip body occurs (the
function is never consulted there). -/
def inflNone : String → Option String := fun _ => none

/-- Arguments with redirect following disabled. -/
def argsPlain : HttpRequestArgs :=
  { extraHeaders := [], compress := false, followRedirects := false, maxRedirects := 5 }

/-- Arguments with redirect following enabled and the given depth bound. -/
def argsFollow (m : Int) : HttpRequestArgs :=
  { extraHeaders := [], compress := false, followRedirects := true, maxRedirects := m }

/-- Arguments whose caller-supplied extra headers already include
Accept and User-Agent. -/
def argsSupplied : HttpRequestArgs :=
  { extraHeaders := [("Accept", "text/html"), ("User-Agent", "curl/7.64.1")],
    compress := false, followRedirects := false, maxRedirects := 5 }

/-- A hop answering 302 with a Location header. -/
def redirHop : Hop :=
  { parsedUrl := some ("http", "example.com", "/", "", 80),
    socketOk := true, connectOk := true, writeOk := true,
    statusLine := (true, "HTTP/1.1 302 Found"),
    headersRes := (true, [("Location", "http://example.com/next")]),
    lines := [], reads := [] }

/-- A hop answering 200 with Content-Length 3 and body "abc". -/
def okHop : Hop :=
  { parsedUrl := some ("http", "example.com", "/next", "", 80),
    socketOk := true, connectOk := true, writeOk := true,
    statusLine := (true, "HTTP/1.1 200 OK"),
    headersRes := (true, [("Content-Length", "3")]),
    lines := [], reads := [(true, "abc")] }

/-- One redirect hop, then the 200 hop. -/
def chainHops : Nat → Hop := fun i => if i = 0 then redirHop else okHop

/-- A hop whose response advertises both Content-Length and chunked
framing and whose transport then fails every body read: exercises the
HEAD short-circuit (which must not read) and the framing priority. -/
def headHop : Hop :=
  { parsedUrl := some ("http", "example.com", "/", "", 80),
    socketOk := true, connectOk := true, writeOk := true,
    statusLine := (true, "HTTP/1.1 200 OK"),
    headersRes := (true, [("Content-Length", "5"), ("Transfer-Encoding", "chunked")]),
    lines := [(false, "")], reads := [(false, "")] }

/-- A hop advertising both Content-Length 3 and chunked framing, with
distinct scripted data on the two paths. -/
def bothHop : Hop :=
  { parsedUrl := some ("http", "example.com", "/", "", 80),
    socketOk := true, connectOk := true, writeOk := true,
    statusLine := (true, "HTTP/1.1 200 OK"),
    headersRes := (true, [("Content-Length", "3"), ("Transfer-Encoding", "chunked")]),
    lines := [(true, "5")], reads := [(true, "abc")] }

/-- The terminal response of `okHop` (Content-Length framing of "abc",
no gzip; note the engine-inserted empty Content-Encoding binding). -/
def okResp : HttpResponse :=
  { statusCode := 200, errorCode := .Ok,
    headers := [("Content-Length", "3"), ("Content-Encoding", "")],
    payload := "abc", errorMsg := "", uploadSize := 79, downloadSize := 3 }

/-- A chunked hop whose first chunk-size line is not hexadecimal. -/
def chunkHopBad : Hop :=
  { parsedUrl := some ("http", "example.com", "/", "", 80),
    socketOk := true, connectOk := true, writeOk := true,
    statusLine := (true, "HTTP/1.1 200 OK"),
    headersRes := (true, [("Transfer-Encoding", "chunked")]),
    lines := [(true, "zz"), (true, "")], reads := [(true, "")] }

/-- Terminal response of `chunkHopBad`: the malformed size line decodes
as 0, ending the body, and the call succeeds. -/
def chunkBadResp : HttpResponse :=
  { statusCode := 200, errorCode := .Ok,
    headers := [("Transfer-Encoding", "chunked"), ("Content-Encoding", "")],
    payload := "", errorMsg := "", uploadSize := 75, downloadSize := 0 }

/-- An error response of the chunked decoder on an exhausted script. -/
def chunkErrResp : HttpResponse :=
  { statusCode := 200, errorCode := .ChunkReadError, headers := [], payload := "",
    errorMsg := "", uploadSize := 0, downloadSize := 0 }

end IXHttp

namespace IXHttp

/-! ### General lemmas about the embedding -/

/-- Evaluating one hop: when the hop terminates (`.inl`), `request`
returns that response. -/
theorem request_inl {inflate : String → Option String} {hops : Nat → Hop}
    {verb body : String} {args : HttpRequestArgs} {k : Nat} {r : HttpResponse}
    (h : hopStep inflate (hops k) verb body args k = .inl r) :
    request inflate hops verb body args k = r := by
  unfold request
  split
  · rename_i resp heq
    rw [h] at heq
    exact (Sum.inl.inj heq).symm
  · rename_i loc heq
    rw [h] at heq
    cases heq

/-- Evaluating one hop: when the hop redirects (`.inr`), `request`
recurses at depth `k+1`. -/
theorem request_inr {inflate : String → Option String} {hops : Nat → Hop}
    {verb body : String} {args : HttpRequestArgs} {k : Nat} {loc : String}
    (h : hopStep inflate (hops k) verb body args k = .inr loc) :
    request inflate hops verb body args k =
      request inflate hops verb body args (k + 1) := by
  conv_lhs => unfold request
  split
  · rename_i resp heq
    rw [h] at heq
    cases heq
  · rfl

/-- A frame that already holds `_mutex` deadlocks on re-acquisition. -/
theorem requestWithLock_held {inflate : String → Option String} {hops : Nat → Hop}
    {verb body : String} {args : HttpRequestArgs} {k : Nat} :
    requestWithLock inflate hops verb body args k true = none := by
  unfold requestWithLock
  rfl

/-- A followed redirect recurses while still holding `_mutex`, so the
recursive acquisition deadlocks. -/
theorem requestWithLock_follow {inflate : String → Option String} {hops : Nat → Hop}
    {verb body : String} {args : HttpRequestArgs} {k : Nat} {loc : String}
    (h : hopStep inflate (hops k) verb body args k = .inr loc) :
    requestWithLock inflate hops verb body args k false = none := by
  unfold requestWithLock
  rw [if_neg (by simp)]
  split
  · rename_i resp heq
    rw [h] at heq
    cases heq
  · exact requestWithLock_held

/-- `operator[]` reads the `find`-value, defaulting to the empty string. -/
theorem hGetOrInsert_fst (hs : Headers) (k : String) :
    (hGetOrInsert hs k).1 = (hfind hs k).getD "" := by
  induction hs with
  | nil => rfl
  | cons p rest ih =>
    obtain ⟨k2, v⟩ := p
    by_cases hk : k2 = k
    · simp [hGetOrInsert, hfind, hk]
    · simp [hGetOrInsert, hfind, hk, ih]

/-- On a missing key, `operator[]` appends an empty binding. -/
theorem hGetOrInsert_of_none {hs : Headers} {k : String}
    (h : hfind hs k = none) : hGetOrInsert hs k = ("", hs ++ [(k, "")]) := by
  induction hs with
  | nil => rfl
  | cons p rest ih =>
    obtain ⟨k2, v⟩ := p
    by_cases hk : k2 = k
    · simp [hfind, hk] at h
    · simp only [hfind, hk, if_neg, ite_false] at h
      simp [hGetOrInsert, hk, ih h]

/-- Looking up a key just appended to a map that lacked it. -/
theorem hfind_append_of_none {hs : Headers} {k : String} (v : String)
    (h : hfind hs k = none) : hfind (hs ++ [(k, v)]) k = some v := by
  induction hs with
  | nil => simp [hfind]
  | cons p rest ih =>
    obtain ⟨k2, v2⟩ := p
    by_cases hk : k2 = k
    · simp [hfind, hk] at h
    · simp only [hfind, hk, if_neg, ite_false] at h
      simp [hfind, hk, ih h]

/-- Packing a byte value below 256 into a `Char` preserves the value. -/
theorem charToNat_ofNat {c : Nat} (h : c < 256) : (Char.ofNat c).toNat = c := by
  have hv : c.isValidChar := Or.inl (by omega)
  rw [Char.ofNat, dif_pos hv]
  simp [Char.ofNatAux, Char.toNat, UInt32.toNat, BitVec.toNat_ofNatLt]

/-- Bytes kept intact by `urlEncode` are never the escape character. -/
theorem keepIntact_ne_percent {c : Nat} (hc : c < 256) (h : keepIntact c = true) :
    Char.ofNat c ≠ '%' := by
  intro heq
  have : c = 37 := by
    have := congrArg Char.toNat heq
    rwa [charToNat_ofNat hc] at this
  subst this
  simp [keepIntact, isalnumByte] at h

/-- `percentDecode` on a non-escape head character. -/
theorem percentDecode_cons {ch : Char} (h : ch ≠ '%') (l : List Char) :
    percentDecode (ch :: l) = ch.toNat :: percentDecode l := by
  match l with
  | [] => simp [percentDecode]
  | [a] => simp [percentDecode]
  | a :: b :: rest =>
    rw [percentDecode.eq_def]
    split
    · rename_i heq
      cases heq
    · rename_i a2 b2 rest2 heq
      injection heq with h1 _
      exact absurd h1 h
    · rename_i c2 rest2 _ heq
      injection heq with h1 h2
      subst h1
      subst h2
      rfl

/-- Uppercase hex digits round-trip through `hexVal`. -/
theorem hexVal_hexDigitUpper : ∀ n, n < 16 → hexVal (hexDigitUpper n) = some n := by
  decide

/-! ### Claim theorems -/

/-- C7: `urlEncode` passes alphanumeric bytes and `-`, `_`, `.`, `~`
through unchanged and replaces every other byte with `%` followed by
exactly two uppercase hexadecimal digits of its value; composing it
with standard percent-decoding reproduces the original byte sequence. -/
theorem urlEncode_correct :
    (∀ c : Nat, c < 256 →
      urlEncode [c] =
        (if keepIntact c then [Char.ofNat c]
         else ['%', hexDigitUpper (c / 16), hexDigitUpper (c % 16)])) ∧
    (∀ n : Nat, n < 16 →
      hexDigitUpper n ∈
        ['0', '1', '2', '3', '4', '5', '6', '7', '8', '9',
         'A', 'B', 'C', 'D', 'E', 'F']) ∧
    (∀ bs : List Nat, (∀ b ∈ bs, b < 256) → percentDecode (urlEncode bs) = bs) := by
  refine ⟨?_, by decide, ?_⟩
  · intro c _
    by_cases hk : keepIntact c = true <;> simp [urlEncode, hk]
  · intro bs hb
    induction bs with
    | nil => rfl
    | cons c rest ih =>
      have hc : c < 256 := hb c (List.mem_cons_self c rest)
      have hrest : ∀ b ∈ rest, b < 256 := fun b hbm => hb b (List.mem_cons_of_mem c hbm)
      by_cases hk : keepIntact c = true
      · rw [urlEncode, if_pos hk, percentDecode_cons (keepIntact_ne_percent hc hk),
          charToNat_ofNat hc, ih hrest]
      · rw [urlEncode, if_neg hk]
        have h1 := hexVal_hexDigitUpper (c / 16) (by omega)
        have h2 := hexVal_hexDigitUpper (c % 16) (Nat.mod_lt _ (by norm_num))
        simp [percentDecode, h1, h2, ih hrest, Nat.div_add_mod]

/-- C7 witness: part one at the space byte (32, which encodes as
percent-two-zero), and the round trip on the bytes 104, 105, 32, 255. -/
theorem urlEncode_correct_w :
    ((32 : Nat) < 256 ∧
      urlEncode [32] =
        (if keepIntact 32 then [Char.ofNat 32]
         else ['%', hexDigitUpper (32 / 16), hexDigitUpper (32 % 16)])) ∧
    ((∀ b ∈ ([104, 105, 32, 255] : List Nat), b < 256) ∧
      percentDecode (urlEncode [104, 105, 32, 255]) = [104, 105, 32, 255]) :=
  ⟨⟨by decide, urlEncode_correct.1 32 (by decide)⟩,
   ⟨by decide, urlEncode_correct.2.2 [104, 105, 32, 255] (by decide)⟩⟩

/-- C8: once the worker's read of the `_stop` flag observes the
shutdown signal, the worker exits without draining the queue: every
entry still pending is left unexecuted (its request is never run, its
callback never invoked) and the queue is abandoned as it stands. -/
theorem shutdown_discards_pending (stop : Nat → Bool) (t : Nat)
    (queue : List TaskEntry) (h : stop t = true) :
    runLoop stop t queue = ([], queue) := by
  unfold runLoop
  rw [if_pos h]

/-- C8 witness: stop already raised, three pending entries. -/
theorem shutdown_discards_pending_w :
    (fun _ : Nat => true) 0 = true ∧
      runLoop (fun _ => true) 0 [7, 8, 9] = ([], [7, 8, 9]) :=
  ⟨rfl, shutdown_discards_pending (fun _ => true) 0 [7, 8, 9] rfl⟩

/-- C9: the `del` entry point issues its request through the verb
constant `kDel`, which is the string "DEL", so the serialized request
line begins `DEL <path> HTTP/1.1` — not `DELETE <path> HTTP/1.1` as
the claim states. -/
theorem del_sends_DEL_not_DELETE :
    kDel = "DEL" ∧
    listStartsWith "DEL /index.html HTTP/1.1\r\n".toList
      (buildRequest kDel "/index.html" "example.com" [] "" argsPlain).toList = true ∧
    listStartsWith "DELETE".toList
      (buildRequest kDel "/index.html" "example.com" [] "" argsPlain).toList = false :=
  ⟨rfl, by decide, by decide⟩

/-- C3: the source checks the freshly-created (empty) response-header
map — not `args.extraHeaders` — before appending the default Accept
and User-Agent lines, so both defaults are serialized even when the
caller supplied those headers: with Accept and User-Agent in
`extraHeaders`, the wire request still contains `Accept: */*` and
`User-Agent: ixwebsocket`, refuting the claimed "if and only if". -/
theorem default_headers_always_emitted :
    hfind argsSupplied.extraHeaders "Accept" = some "text/html" ∧
    hfind argsSupplied.extraHeaders "User-Agent" = some "curl/7.64.1" ∧
    listHasSub "Accept: text/html\r\n".toList
      (buildRequest kGet "/" "example.com" [] "" argsSupplied).toList = true ∧
    listHasSub "Accept: */*\r\n".toList
      (buildRequest kGet "/" "example.com" [] "" argsSupplied).toList = true ∧
    listHasSub "User-Agent: ixwebsocket\r\n".toList
      (buildRequest kGet "/" "example.com" [] "" argsSupplied).toList = true :=
  ⟨rfl, rfl, by decide, by decide, by decide⟩

/-- Evaluation of `hopStep` on a hop whose collaborators all succeed
and whose status code and arguments select the followed-redirect
branch within the depth bound. -/
theorem hopStep_redirect (inflate : String → Option String)
    (pr ho pa qu : String) (po : Int) (sl : String) (hs : Headers)
    (ls rs : List (Bool × String)) (verb body : String) (args : HttpRequestArgs)
    (k : Nat) (c : Int) (loc : String)
    (hc : parseStatusCode sl = some c) (h1 : 301 ≤ c) (h2 : c ≤ 308)
    (hf : args.followRedirects = true) (hloc : hfind hs "Location" = some loc)
    (hlt : (k : Int) < args.maxRedirects) :
    hopStep inflate
      ⟨some (pr, ho, pa, qu, po), true, true, true, (true, sl), (true, hs), ls, rs⟩
      verb body args k = .inr loc := by
  have hge : ¬((k : Int) ≥ args.maxRedirects) := not_le.mpr hlt
  simp [hopStep, hc, hloc, h1, h2, hf, hge]

/-- Evaluation of `hopStep` on a followed-redirect hop at exhausted
depth: the TooManyRedirects terminal response. -/
theorem hopStep_toomany (inflate : String → Option String)
    (pr ho pa qu : String) (po : Int) (sl : String) (hs : Headers)
    (ls rs : List (Bool × String)) (verb body : String) (args : HttpRequestArgs)
    (k : Nat) (c : Int) (loc : String)
    (hc : parseStatusCode sl = some c) (h1 : 301 ≤ c) (h2 : c ≤ 308)
    (hf : args.followRedirects = true) (hloc : hfind hs "Location" = some loc)
    (hge : args.maxRedirects ≤ (k : Int)) :
    hopStep inflate
      ⟨some (pr, ho, pa, qu, po), true, true, true, (true, sl), (true, hs), ls, rs⟩
      verb body args k =
      .inl { statusCode := c, errorCode := .TooManyRedirects, headers := hs,
             payload := "", errorMsg := "Too many redirects",
             uploadSize := (buildRequest verb pa ho [] body args).length,
             downloadSize := 0 } := by
  simp [hopStep, hc, hloc, h1, h2, hf, hge]

/-- Evaluation of `hopStep` on a successful non-redirected hop: the
HEAD short-circuit or body framing. -/
theorem hopStep_normal (inflate : String → Option String)
    (pr ho pa qu : String) (po : Int) (sl : String) (hs : Headers)
    (ls rs : List (Bool × String)) (verb body : String) (args : HttpRequestArgs)
    (k : Nat) (c : Int)
    (hc : parseStatusCode sl = some c)
    (hnr : ¬((301 ≤ c ∧ c ≤ 308) ∧ args.followRedirects = true)) :
    hopStep inflate
      ⟨some (pr, ho, pa, qu, po), true, true, true, (true, sl), (true, hs), ls, rs⟩
      verb body args k =
      (if verb = "HEAD" then
        .inl { statusCode := c, errorCode := .Ok, headers := hs, payload := "",
               errorMsg := "", uploadSize := (buildRequest verb pa ho [] body args).length,
               downloadSize := 0 }
       else
        .inl (framingResult inflate c hs ls rs
          (buildRequest verb pa ho [] body args).length)) := by
  simp only [hopStep, hc]
  rw [if_neg hnr]
  simp

/-- Unpacking a `goodRedirectHop`: its collaborator script succeeds all
the way to a 3xx status with a Location header. -/
theorem goodRedirectHop_spec (hop : Hop) (hgood : goodRedirectHop hop = true) :
    ∃ pr ho pa qu po sl hs ls rs c loc,
      hop = ⟨some (pr, ho, pa, qu, po), true, true, true, (true, sl), (true, hs), ls, rs⟩ ∧
      parseStatusCode sl = some c ∧ 301 ≤ c ∧ c ≤ 308 ∧
      hfind hs "Location" = some loc := by
  obtain ⟨pu, so, co, wo, sl, hr, ls, rs⟩ := hop
  obtain ⟨sl1, sl2⟩ := sl
  obtain ⟨hr1, hr2⟩ := hr
  simp only [goodRedirectHop, Bool.and_eq_true] at hgood
  obtain ⟨⟨⟨⟨⟨⟨⟨hpu, hso⟩, hco⟩, hwo⟩, hsl1⟩, hcode⟩, hhr1⟩, hloc⟩ := hgood
  obtain ⟨⟨pr, ho, pa, qu, po⟩, hpu2⟩ := Option.isSome_iff_exists.mp hpu
  obtain ⟨loc, hloc2⟩ := Option.isSome_iff_exists.mp hloc
  cases hps : parseStatusCode sl2 with
  | none => rw [hps] at hcode; simp at hcode
  | some c =>
    rw [hps] at hcode
    simp only [Bool.and_eq_true, decide_eq_true_eq] at hcode
    subst hpu2
    subst hso
    subst hco
    subst hwo
    subst hsl1
    subst hhr1
    exact ⟨pr, ho, pa, qu, po, sl2, hr2, ls, rs, c, loc, rfl, hps,
      hcode.1, hcode.2, hloc2⟩

/-- Following a chain of `d` good redirect hops from depth `k`, all
within the depth bound. -/
theorem request_skip (inflate : String → Option String) (hops : Nat → Hop)
    (verb body : String) (args : HttpRequestArgs)
    (hf : args.followRedirects = true) :
    ∀ d k, (∀ i, k ≤ i → i < k + d → goodRedirectHop (hops i) = true) →
      ((k + d : Nat) : Int) ≤ args.maxRedirects →
      request inflate hops verb body args k =
        request inflate hops verb body args (k + d) := by
  intro d
  induction d with
  | zero => intro k _ _; rfl
  | succ m ih =>
    intro k hg hle
    have hgk : goodRedirectHop (hops k) = true := hg k le_rfl (by omega)
    obtain ⟨pr, ho, pa, qu, po, sl, hs, ls, rs, c, loc, hhop, hc, h1, h2, hloc⟩ :=
      goodRedirectHop_spec (hops k) hgk
    have hlt : (k : Int) < args.maxRedirects := by
      have h3 : ((k + (m + 1) : Nat) : Int) ≤ args.maxRedirects := hle
      push_cast at h3
      omega
    have hstep : hopStep inflate (hops k) verb body args k = .inr loc := by
      rw [hhop]
      exact hopStep_redirect inflate pr ho pa qu po sl hs ls rs verb body args
        k c loc hc h1 h2 hf hloc hlt
    rw [request_inr hstep]
    have hrec := ih (k + 1) (fun i hi1 hi2 => hg i (by omega) (by omega))
      (by push_cast at hle ⊢; omega)
    rw [hrec, show k + 1 + m = k + (m + 1) by omega]

/-- C2: with followRedirects set and `maxRedirects = n`, a chain of
exactly `n` followed redirect hops ends with the final hop's own
response returned to the caller; a chain of `n + 1` redirect responses
instead terminates at depth `n` with TooManyRedirects, and the result
does not depend on any hop beyond index `n` (no further hop is
attempted). -/
theorem redirect_chain_bound (inflate : String → Option String) (hops : Nat → Hop)
    (verb body : String) (args : HttpRequestArgs) (n : Nat)
    (hf : args.followRedirects = true)
    (hmax : args.maxRedirects = (n : Int))
    (hchain : ∀ i, i < n → goodRedirectHop (hops i) = true) :
    (∀ r, hopStep inflate (hops n) verb body args n = .inl r →
      request inflate hops verb body args 0 = r) ∧
    (goodRedirectHop (hops n) = true →
      (request inflate hops verb body args 0).errorCode = HttpErrorCode.TooManyRedirects ∧
      ∀ hops2 : Nat → Hop, (∀ i, i ≤ n → hops2 i = hops i) →
        request inflate hops2 verb body args 0 =
          request inflate hops verb body args 0) := by
  have hskip : request inflate hops verb body args 0 =
      request inflate hops verb body args n := by
    have := request_skip inflate hops verb body args hf n 0
      (fun i _ hi2 => hchain i (by omega)) (by omega)
    simpa using this
  constructor
  · intro r hr
    rw [hskip]
    exact request_inl hr
  · intro hgn
    obtain ⟨pr, ho, pa, qu, po, sl, hs, ls, rs, c, loc, hhop, hc, h1, h2, hloc⟩ :=
      goodRedirectHop_spec (hops n) hgn
    have hge : args.maxRedirects ≤ (n : Int) := le_of_eq hmax
    have hstep : hopStep inflate (hops n) verb body args n =
        .inl { statusCode := c, errorCode := .TooManyRedirects, headers := hs,
               payload := "", errorMsg := "Too many redirects",
               uploadSize := (buildRequest verb pa ho [] body args).length,
               downloadSize := 0 } := by
      rw [hhop]
      exact hopStep_toomany inflate pr ho pa qu po sl hs ls rs verb body args
        n c loc hc h1 h2 hf hloc hge
    constructor
    · rw [hskip, request_inl hstep]
    · intro hops2 hag
      have hskip2 : request inflate hops2 verb body args 0 =
          request inflate hops2 verb body args n := by
        have := request_skip inflate hops2 verb body args hf n 0
          (fun i _ hi2 => by
            rw [hag i (by omega)]
            exact hchain i (by omega))
          (by omega)
        simpa using this
      have hstep2 : hopStep inflate (hops2 n) verb body args n =
          .inl { statusCode := c, errorCode := .TooManyRedirects, headers := hs,
                 payload := "", errorMsg := "Too many redirects",
                 uploadSize := (buildRequest verb pa ho [] body args).length,
                 downloadSize := 0 } := by
        rw [hag n le_rfl]
        exact hstep
      rw [hskip2, request_inl hstep2, hskip, request_inl hstep]

/-- C2 witness: `maxRedirects = 1`; one redirect hop then a 200 hop
returns the 200 hop's response; two redirect hops yield
TooManyRedirects. -/
theorem redirect_chain_bound_w :
    ((argsFollow 1).followRedirects = true ∧
      (argsFollow 1).maxRedirects = ((1 : Nat) : Int) ∧
      (∀ i, i < 1 → goodRedirectHop (chainHops i) = true) ∧
      hopStep inflNone (chainHops 1) kGet "" (argsFollow 1) 1 = .inl okResp ∧
      goodRedirectHop redirHop = true) ∧
    request inflNone chainHops kGet "" (argsFollow 1) 0 = okResp ∧
    (request inflNone (fun _ => redirHop) kGet "" (argsFollow 1) 0).errorCode =
      HttpErrorCode.TooManyRedirects := by
  have hf : (argsFollow 1).followRedirects = true := rfl
  have hm : (argsFollow 1).maxRedirects = ((1 : Nat) : Int) := rfl
  have hc1 : ∀ i, i < 1 → goodRedirectHop (chainHops i) = true := by
    intro i hi
    have hi0 : i = 0 := by omega
    subst hi0
    decide
  have hstep : hopStep inflNone (chainHops 1) kGet "" (argsFollow 1) 1 = .inl okResp := by
    decide
  have hgr : goodRedirectHop redirHop = true := by decide
  have hc2 : ∀ i, i < 1 → goodRedirectHop ((fun _ => redirHop) i) = true := fun i _ => hgr
  refine ⟨⟨hf, hm, hc1, hstep, hgr⟩, ?_, ?_⟩
  · exact (redirect_chain_bound inflNone chainHops kGet "" (argsFollow 1) 1 hf hm hc1).1
      okResp hstep
  · exact ((redirect_chain_bound inflNone (fun _ => redirHop) kGet "" (argsFollow 1) 1
      hf hm hc2).2 hgr).1

/-- C6: a HEAD request whose status line and headers parse successfully
and which is not redirected returns Ok with an empty body and performs
no body read: the response is a value independent of the body scripts
and of any Content-Length or Transfer-Encoding response header. -/
theorem head_request_no_body (inflate : String → Option String) (hops : Nat → Hop)
    (body : String) (args : HttpRequestArgs) (k : Nat)
    (pr ho pa qu : String) (po : Int) (sl : String) (hs : Headers)
    (ls rs : List (Bool × String)) (c : Int)
    (hhop : hops k = ⟨some (pr, ho, pa, qu, po), true, true, true, (true, sl), (true, hs), ls, rs⟩)
    (hc : parseStatusCode sl = some c)
    (hnr : ¬((301 ≤ c ∧ c ≤ 308) ∧ args.followRedirects = true)) :
    request inflate hops "HEAD" body args k =
      { statusCode := c, errorCode := .Ok, headers := hs, payload := "", errorMsg := "",
        uploadSize := (buildRequest "HEAD" pa ho [] body args).length,
        downloadSize := 0 } ∧
    ∀ (hops2 : Nat → Hop) (ls2 rs2 : List (Bool × String)),
      hops2 k = ⟨some (pr, ho, pa, qu, po), true, true, true, (true, sl), (true, hs), ls2, rs2⟩ →
      request inflate hops2 "HEAD" body args k =
        request inflate hops "HEAD" body args k := by
  have hmain : ∀ ls3 rs3 : List (Bool × String),
      hopStep inflate
        ⟨some (pr, ho, pa, qu, po), true, true, true, (true, sl), (true, hs), ls3, rs3⟩
        "HEAD" body args k =
        .inl { statusCode := c, errorCode := .Ok, headers := hs, payload := "",
               errorMsg := "", uploadSize := (buildRequest "HEAD" pa ho [] body args).length,
               downloadSize := 0 } := by
    intro ls3 rs3
    rw [hopStep_normal inflate pr ho pa qu po sl hs ls3 rs3 "HEAD" body args k c hc hnr]
    simp
  have h1 : request inflate hops "HEAD" body args k =
      { statusCode := c, errorCode := .Ok, headers := hs, payload := "", errorMsg := "",
        uploadSize := (buildRequest "HEAD" pa ho [] body args).length,
        downloadSize := 0 } :=
    request_inl (by rw [hhop]; exact hmain ls rs)
  refine ⟨h1, ?_⟩
  intro hops2 ls2 rs2 hhop2
  rw [h1]
  exact request_inl (by rw [hhop2]; exact hmain ls2 rs2)

/-- C6 witness: a HEAD hop advertising Content-Length 5 and chunked
framing, whose transport fails every body read — the call still
returns Ok with an empty body. -/
theorem head_request_no_body_w :
    ((fun _ : Nat => headHop) 0 =
        ⟨some ("http", "example.com", "/", "", 80), true, true, true,
         (true, "HTTP/1.1 200 OK"),
         (true, [("Content-Length", "5"), ("Transfer-Encoding", "chunked")]),
         [(false, "")], [(false, "")]⟩ ∧
      parseStatusCode "HTTP/1.1 200 OK" = some 200 ∧
      ¬((301 ≤ (200 : Int) ∧ (200 : Int) ≤ 308) ∧ argsPlain.followRedirects = true)) ∧
    request inflNone (fun _ => headHop) "HEAD" "" argsPlain 0 =
      { statusCode := 200, errorCode := .Ok,
        headers := [("Content-Length", "5"), ("Transfer-Encoding", "chunked")],
        payload := "", errorMsg := "",
        uploadSize := (buildRequest "HEAD" "/" "example.com" [] "" argsPlain).length,
        downloadSize := 0 } := by
  refine ⟨⟨rfl, by decide, by decide⟩, ?_⟩
  exact (head_request_no_body inflNone (fun _ => headHop) "" argsPlain 0
    "http" "example.com" "/" "" 80 "HTTP/1.1 200 OK"
    [("Content-Length", "5"), ("Transfer-Encoding", "chunked")]
    [(false, "")] [(false, "")] 200 rfl (by decide) (by decide)).1

/-- A response whose Content-Encoding is not gzip finishes Ok with the
payload unchanged (and the subscript-extended header map). -/
theorem finishBody_not_gzip (inflate : String → Option String) (c : Int) (hs : Headers)
    (payload : String) (u : Nat) (h : hfind hs "Content-Encoding" ≠ some "gzip") :
    finishBody inflate c hs payload u =
      { statusCode := c, errorCode := .Ok,
        headers := (hGetOrInsert hs "Content-Encoding").2,
        payload := payload, errorMsg := "", uploadSize := u,
        downloadSize := payload.length } := by
  have hne : (hGetOrInsert hs "Content-Encoding").1 ≠ "gzip" := by
    rw [hGetOrInsert_fst]
    cases hfv : hfind hs "Content-Encoding" with
    | none => simp
    | some v =>
      simp only [Option.getD_some]
      intro hvz
      exact h (by rw [hfv, hvz])
  unfold finishBody
  rw [if_neg hne]

/-- Every error response produced by the chunked decode loop carries
ChunkReadError (strong induction on the line script). -/
theorem chunkLoop_inl_chunkReadError {code : Int} {hs : Headers} {u : Nat}
    {lines reads : List (Bool × String)} {payload : String} {e : HttpResponse}
    (h : chunkLoop code hs u lines reads payload = .inl e) :
    e.errorCode = HttpErrorCode.ChunkReadError := by
  have main : ∀ (n : Nat) (lines : List (Bool × String)), lines.length ≤ n →
      ∀ (code : Int) (hs : Headers) (u : Nat) (reads : List (Bool × String))
        (payload : String) (e : HttpResponse),
        chunkLoop code hs u lines reads payload = .inl e →
        e.errorCode = HttpErrorCode.ChunkReadError := by
    intro n
    induction n with
    | zero =>
      intro lines hlen code hs u reads payload e h
      have hnil : lines = [] := List.length_eq_zero.mp (Nat.le_zero.mp hlen)
      subst hnil
      injection h with h2
      rw [← h2]
    | succ m ih =>
      intro lines hlen code hs u reads payload e h
      cases lines with
      | nil =>
        injection h with h2
        rw [← h2]
      | cons p lines1 =>
        obtain ⟨ok1, line⟩ := p
        cases ok1 with
        | false =>
          simp [chunkLoop] at h
          rw [← h]
        | true =>
          cases reads with
          | nil =>
            simp [chunkLoop, readBytes] at h
            rw [← h]
          | cons q rs1 =>
            obtain ⟨rok, data⟩ := q
            cases rok with
            | false =>
              simp [chunkLoop, readBytes] at h
              rw [← h]
            | true =>
              cases lines1 with
              | nil =>
                simp [chunkLoop, readBytes] at h
                rw [← h]
              | cons q2 lines2 =>
                obtain ⟨ok2, t⟩ := q2
                cases ok2 with
                | false =>
                  simp [chunkLoop, readBytes] at h
                  rw [← h]
                | true =>
                  by_cases hz : parseHexSize line = 0
                  · simp [chunkLoop, readBytes, hz] at h
                  · simp [chunkLoop, readBytes, hz] at h
                    exact ih lines2 (by simp at hlen; omega) code hs u rs1
                      (payload ++ data) e h
  exact main lines.length lines le_rfl code hs u reads payload e h

/-- The error response of the fixed-length body read carries
ChunkReadError. -/
theorem clBody_inl_error {c : Int} {hs : Headers} {clv : String}
    {reads : List (Bool × String)} {u : Nat} {err : HttpResponse}
    (h : clBody c hs clv reads u = .inl err) :
    err.errorCode = HttpErrorCode.ChunkReadError := by
  simp only [clBody] at h
  split at h
  · cases h
  · injection h with h2
    rw [← h2]

/-- With no server-sent Content-Encoding, the response tail always
succeeds and appends the empty Content-Encoding binding. -/
theorem finishBody_of_ce_none (inflate : String → Option String) (c : Int)
    (hs : Headers) (payload : String) (u : Nat)
    (hce : hfind hs "Content-Encoding" = none) :
    finishBody inflate c hs payload u =
      { statusCode := c, errorCode := .Ok,
        headers := hs ++ [("Content-Encoding", "")],
        payload := payload, errorMsg := "", uploadSize := u,
        downloadSize := payload.length } := by
  have hgz : hfind hs "Content-Encoding" ≠ some "gzip" := by rw [hce]; simp
  rw [finishBody_not_gzip inflate c hs payload u hgz, hGetOrInsert_of_none hce]

/-- Body framing with no server-sent Content-Encoding: whenever the
framing result is successful — on any of the framing paths — its
header map contains the engine-inserted empty Content-Encoding
binding. -/
theorem framingResult_ok_headers (inflate : String → Option String) (c : Int)
    (hs : Headers) (ls rs : List (Bool × String)) (u : Nat)
    (hce : hfind hs "Content-Encoding" = none)
    (hok : (framingResult inflate c hs ls rs u).errorCode = HttpErrorCode.Ok) :
    hfind (framingResult inflate c hs ls rs u).headers "Content-Encoding" =
      some "" := by
  cases hcl : hfind hs "Content-Length" with
  | some clv =>
    have hfr : framingResult inflate c hs ls rs u = clOutcome inflate c hs clv rs u := by
      simp [framingResult, hcl]
    rw [hfr] at hok ⊢
    cases hclb : clBody c hs clv rs u with
    | inl err =>
      have h2 : clOutcome inflate c hs clv rs u = err := by simp [clOutcome, hclb]
      rw [h2, clBody_inl_error hclb] at hok
      exact absurd hok (by decide)
    | inr payload =>
      have h2 : clOutcome inflate c hs clv rs u = finishBody inflate c hs payload u := by
        simp [clOutcome, hclb]
      rw [h2, finishBody_of_ce_none inflate c hs payload u hce]
      exact hfind_append_of_none "" hce
  | none =>
    by_cases hte : hfind hs "Transfer-Encoding" = some "chunked"
    · have hfr : framingResult inflate c hs ls rs u = chunkedOutcome inflate c hs ls rs u := by
        simp [framingResult, hcl, hte]
      rw [hfr] at hok ⊢
      cases hch : chunkLoop c hs u ls rs "" with
      | inl err =>
        have h2 : chunkedOutcome inflate c hs ls rs u = err := by
          simp [chunkedOutcome, hch]
        rw [h2, chunkLoop_inl_chunkReadError hch] at hok
        exact absurd hok (by decide)
      | inr payload =>
        have h2 : chunkedOutcome inflate c hs ls rs u = finishBody inflate c hs payload u := by
          simp [chunkedOutcome, hch]
        rw [h2, finishBody_of_ce_none inflate c hs payload u hce]
        exact hfind_append_of_none "" hce
    · by_cases h204 : c = 204
      · have hfr : framingResult inflate c hs ls rs u = finishBody inflate c hs "" u := by
          simp [framingResult, hcl, hte, h204]
        rw [hfr, finishBody_of_ce_none inflate c hs "" u hce]
        exact hfind_append_of_none "" hce
      · have hfr : (framingResult inflate c hs ls rs u).errorCode =
            HttpErrorCode.CannotReadBody := by
          simp [framingResult, hcl, hte, h204]
        rw [hfr] at hok
        exact absurd hok (by decide)

/-- C5: for a successful non-HEAD non-redirected hop, the call reaches
body framing exactly once, and the framing path is chosen by header
presence in priority order: Content-Length first (even when chunked
framing or a 204 status is also present), else Transfer-Encoding
chunked, else 204 (empty body, success), else CannotReadBody. -/
theorem framing_path_selection (inflate : String → Option String) (hops : Nat → Hop)
    (verb body : String) (args : HttpRequestArgs) (k : Nat)
    (pr ho pa qu : String) (po : Int) (sl : String) (hs : Headers)
    (ls rs : List (Bool × String)) (c : Int)
    (hhop : hops k = ⟨some (pr, ho, pa, qu, po), true, true, true, (true, sl), (true, hs), ls, rs⟩)
    (hc : parseStatusCode sl = some c)
    (hnr : ¬((301 ≤ c ∧ c ≤ 308) ∧ args.followRedirects = true))
    (hv : verb ≠ "HEAD") :
    request inflate hops verb body args k =
      framingResult inflate c hs ls rs (buildRequest verb pa ho [] body args).length ∧
    (∀ clv, hfind hs "Content-Length" = some clv →
      ∀ u, framingResult inflate c hs ls rs u = clOutcome inflate c hs clv rs u) ∧
    (hfind hs "Content-Length" = none →
      hfind hs "Transfer-Encoding" = some "chunked" →
      ∀ u, framingResult inflate c hs ls rs u = chunkedOutcome inflate c hs ls rs u) ∧
    (hfind hs "Content-Length" = none →
      hfind hs "Transfer-Encoding" ≠ some "chunked" →
      c = 204 → hfind hs "Content-Encoding" ≠ some "gzip" →
      ∀ u, (framingResult inflate c hs ls rs u).errorCode = HttpErrorCode.Ok ∧
        (framingResult inflate c hs ls rs u).payload = "") ∧
    (hfind hs "Content-Length" = none →
      hfind hs "Transfer-Encoding" ≠ some "chunked" →
      c ≠ 204 →
      ∀ u, (framingResult inflate c hs ls rs u).errorCode = HttpErrorCode.CannotReadBody ∧
        (framingResult inflate c hs ls rs u).payload = "") := by
  refine ⟨?_, ?_, ?_, ?_, ?_⟩
  · have hstep := hopStep_normal inflate pr ho pa qu po sl hs ls rs verb body args k c hc hnr
    rw [if_neg hv] at hstep
    exact request_inl (by rw [hhop]; exact hstep)
  · intro clv hclv u
    simp [framingResult, hclv]
  · intro hcl hte u
    simp [framingResult, hcl, hte]
  · intro hcl hte h204 hce u
    have hfr : framingResult inflate c hs ls rs u = finishBody inflate c hs "" u := by
      simp [framingResult, hcl, hte, h204]
    rw [hfr, finishBody_not_gzip inflate c hs "" u hce]
    exact ⟨rfl, rfl⟩
  · intro hcl hte h204 u
    simp [framingResult, hcl, hte, h204]

/-- C5 witness: a response carrying both Content-Length 3 and
Transfer-Encoding chunked takes the Content-Length path. -/
theorem framing_path_selection_w :
    ((fun _ : Nat => bothHop) 0 =
        ⟨some ("http", "example.com", "/", "", 80), true, true, true,
         (true, "HTTP/1.1 200 OK"),
         (true, [("Content-Length", "3"), ("Transfer-Encoding", "chunked")]),
         [(true, "5")], [(true, "abc")]⟩ ∧
      parseStatusCode "HTTP/1.1 200 OK" = some 200 ∧
      ¬((301 ≤ (200 : Int) ∧ (200 : Int) ≤ 308) ∧ argsPlain.followRedirects = true) ∧
      kGet ≠ "HEAD" ∧
      hfind [("Content-Length", "3"), ("Transfer-Encoding", "chunked")] "Content-Length" =
        some "3") ∧
    request inflNone (fun _ => bothHop) kGet "" argsPlain 0 =
      framingResult inflNone 200 [("Content-Length", "3"), ("Transfer-Encoding", "chunked")]
        [(true, "5")] [(true, "abc")]
        (buildRequest kGet "/" "example.com" [] "" argsPlain).length ∧
    framingResult inflNone 200 [("Content-Length", "3"), ("Transfer-Encoding", "chunked")]
      [(true, "5")] [(true, "abc")] 75 =
      clOutcome inflNone 200 [("Content-Length", "3"), ("Transfer-Encoding", "chunked")]
        "3" [(true, "abc")] 75 := by
  have hsel := framing_path_selection inflNone (fun _ => bothHop) kGet "" argsPlain 0
    "http" "example.com" "/" "" 80 "HTTP/1.1 200 OK"
    [("Content-Length", "3"), ("Transfer-Encoding", "chunked")]
    [(true, "5")] [(true, "abc")] 200 rfl (by decide) (by decide) (by decide)
  exact ⟨⟨rfl, by decide, by decide, by decide, rfl⟩, hsel.1, hsel.2.1 "3" rfl 75⟩

/-- C10: every successful non-HEAD, non-redirected call — whatever
framing path its response took (Content-Length, chunked, or 204) —
whose response did not include a Content-Encoding header still returns
a header map containing the key Content-Encoding bound to the empty
string, inserted by the gzip check's map subscript; the returned
header set is therefore not limited to headers the server sent. -/
theorem content_encoding_key_inserted (inflate : String → Option String) (hops : Nat → Hop)
    (verb body : String) (args : HttpRequestArgs) (k : Nat)
    (pr ho pa qu : String) (po : Int) (sl : String) (hs : Headers) (c : Int)
    (ls rs : List (Bool × String))
    (hhop : hops k =
      ⟨some (pr, ho, pa, qu, po), true, true, true, (true, sl), (true, hs), ls, rs⟩)
    (hc : parseStatusCode sl = some c)
    (hnr : ¬((301 ≤ c ∧ c ≤ 308) ∧ args.followRedirects = true))
    (hv : verb ≠ "HEAD")
    (hce : hfind hs "Content-Encoding" = none)
    (hok : (request inflate hops verb body args k).errorCode = HttpErrorCode.Ok) :
    hfind (request inflate hops verb body args k).headers "Content-Encoding" =
      some "" := by
  have hstep := hopStep_normal inflate pr ho pa qu po sl hs ls rs verb body args k c hc hnr
  rw [if_neg hv] at hstep
  have hreq : request inflate hops verb body args k =
      framingResult inflate c hs ls rs (buildRequest verb pa ho [] body args).length :=
    request_inl (by rw [hhop]; exact hstep)
  rw [hreq] at hok ⊢
  exact framingResult_ok_headers inflate c hs ls rs
    (buildRequest verb pa ho [] body args).length hce hok

/-- C10 witness: the 200 hop with Content-Length 3, body "abc" and no
server-sent Content-Encoding. -/
theorem content_encoding_key_inserted_w :
    ((fun _ : Nat => okHop) 0 =
        ⟨some ("http", "example.com", "/next", "", 80), true, true, true,
         (true, "HTTP/1.1 200 OK"), (true, [("Content-Length", "3")]),
         [], [(true, "abc")]⟩ ∧
      parseStatusCode "HTTP/1.1 200 OK" = some 200 ∧
      ¬((301 ≤ (200 : Int) ∧ (200 : Int) ≤ 308) ∧ argsPlain.followRedirects = true) ∧
      kGet ≠ "HEAD" ∧
      hfind [("Content-Length", "3")] "Content-Encoding" = none ∧
      (request inflNone (fun _ => okHop) kGet "" argsPlain 0).errorCode =
        HttpErrorCode.Ok) ∧
    hfind (request inflNone (fun _ => okHop) kGet "" argsPlain 0).headers
      "Content-Encoding" = some "" := by
  have hreq : request inflNone (fun _ => okHop) kGet "" argsPlain 0 = okResp :=
    request_inl (by decide)
  have hok : (request inflNone (fun _ => okHop) kGet "" argsPlain 0).errorCode =
      HttpErrorCode.Ok := by rw [hreq]; rfl
  exact ⟨⟨rfl, by decide, by decide, by decide, rfl, hok⟩,
    content_encoding_key_inserted inflNone (fun _ => okHop) kGet "" argsPlain 0
      "http" "example.com" "/next" "" 80 "HTTP/1.1 200 OK" [("Content-Length", "3")] 200
      [] [(true, "abc")] rfl (by decide) (by decide) (by decide) rfl hok⟩

/-- C4 counterexample: a chunked response whose first chunk-size line
is "zz" (not hexadecimal): the call returns Ok with an empty body —
the malformed line is silently treated as chunk size 0 and hence
end-of-body — not ChunkReadError as the claim states. -/
theorem chunk_malformed_hex_accepted :
    request inflNone (fun _ => chunkHopBad) kGet "" argsPlain 0 = chunkBadResp ∧
    chunkBadResp.errorCode = HttpErrorCode.Ok :=
  ⟨request_inl (by decide), rfl⟩

/-- C4 amended: a chunk-size line with no leading hexadecimal digit
parses as 0 (C++11 failed-extraction stores zero) and is then handled
exactly like the zero-size final chunk — the decoder consumes the
chunk read and the trailer line and ends the body successfully; an
error response arises from the chunked decoder only as ChunkReadError,
and only out of a failed line read or chunk read. -/
theorem chunk_malformed_as_end_of_body :
    (∀ l, hexFreeLine l = true → parseHexSize l = 0) ∧
    (∀ (code : Int) (hs : Headers) (u : Nat) (l t : String)
        (rest : List (Bool × String)) (d : String) (rs : List (Bool × String))
        (payload : String),
      parseHexSize l = 0 →
      chunkLoop code hs u ((true, l) :: (true, t) :: rest) ((true, d) :: rs) payload =
        .inr (payload ++ d)) ∧
    (∀ (code : Int) (hs : Headers) (u : Nat) (lines reads : List (Bool × String))
        (payload : String) (e : HttpResponse),
      chunkLoop code hs u lines reads payload = .inl e →
      e.errorCode = HttpErrorCode.ChunkReadError) := by
  refine ⟨?_, ?_, ?_⟩
  · intro l h
    unfold hexFreeLine at h
    unfold parseHexSize
    cases hd : l.toList.dropWhile (fun c => c = ' ') with
    | nil => simp [hd]
    | cons ch cs =>
      rw [hd] at h
      simp only [Option.isNone_iff_eq_none] at h
      have hns : (hexVal ch).isSome = false := by rw [h]; rfl
      simp [hd, List.takeWhile_cons, hns]
  · intro code hs u l t rest d rs payload h
    simp [chunkLoop, readBytes, h]
  · intro code hs u lines reads payload e h
    exact chunkLoop_inl_chunkReadError h

/-- C4 amended witness: "zz" is hex-free and parses as 0; a chunked
body beginning with it decodes as an empty end-of-body; the decoder's
error on an exhausted transport is ChunkReadError. -/
theorem chunk_malformed_as_end_of_body_w :
    (hexFreeLine "zz" = true ∧ parseHexSize "zz" = 0) ∧
    chunkLoop 200 [("Transfer-Encoding", "chunked")] 75 [(true, "zz"), (true, "")]
      [(true, "")] "" = .inr ("" ++ "") ∧
    (chunkLoop 200 [] 0 [] [] "" = .inl chunkErrResp ∧
      chunkErrResp.errorCode = HttpErrorCode.ChunkReadError) := by
  refine ⟨⟨by decide, chunk_malformed_as_end_of_body.1 "zz" (by decide)⟩, ?_, by decide, ?_⟩
  · exact chunk_malformed_as_end_of_body.2.1 200 [("Transfer-Encoding", "chunked")] 75
      "zz" "" [] "" [] "" (chunk_malformed_as_end_of_body.1 "zz" (by decide))
  · exact chunk_malformed_as_end_of_body.2.2 200 [] 0 [] [] "" chunkErrResp (by decide)

/-- C1: the code violates the claim. `request` acquires the
instance-wide `_mutex` at entry and the redirect recursion re-enters
`request`, so a followed redirect acquires the non-reentrant lock a
second time on the same thread: the call deadlocks (first conjunct,
the lock-aware model returns no response) instead of completing; under
the lock-free sequential semantics the very same scenario completes
with Ok (second conjunct), which is the behaviour the claim and the
spec prescribe. -/
theorem redirect_second_lock_deadlocks :
    requestWithLock inflNone (fun _ => redirHop) kGet "" (argsFollow 5) 0 false = none ∧
    (request inflNone chainHops kGet "" (argsFollow 5) 0).errorCode = HttpErrorCode.Ok := by
  constructor
  · have h : hopStep inflNone ((fun _ : Nat => redirHop) 0) kGet "" (argsFollow 5) 0 =
        Sum.inr "http://example.com/next" := by decide
    exact requestWithLock_follow h
  · have h0 : hopStep inflNone (chainHops 0) kGet "" (argsFollow 5) 0 =
        .inr "http://example.com/next" := by decide
    have h1 : hopStep inflNone (chainHops 1) kGet "" (argsFollow 5) 1 = .inl okResp := by
      decide
    rw [request_inr h0, request_inl h1]
    rfl

end IXHttp
